import Mathlib

/-!
# Verification of `payload-puck` core logic

A shallow embedding, in Lean 4, of the core logic of the `payload-puck`
repository: the slugify utility, the homepage-uniqueness `beforeChange`
hook with its companion `unsetHomepage` operation, and the REST endpoint
handlers / version-history panel / styles handler described by the spec.

Pure functions are translated directly; effectful host interactions are
modelled by explicit oracles (`Except`-valued host operations) together
with an explicit log of the host calls a handler performs.
-/

namespace PayloadPuck

/-! ## Slugify (from `PageSegmentField`)

The source lower-cases the text, trims it, removes every character
outside the class "word, whitespace, hyphen", replaces each run of
whitespace-or-underscore with a single hyphen, collapses each run of
hyphens to a single hyphen, and strips leading and trailing hyphen runs.

Characters are handled by code point.  The regex class `\w` is
`[A-Za-z0-9_]` (codes 65-90, 97-122, 48-57, 95); the class `\s` is the
JavaScript whitespace set, spelled out by code point in `isJsSpace`.
`String.prototype.toLowerCase` is embedded as `Char.toLower` (ASCII
case-mapping), and each `replace` of a run-matching regex is embedded as
a direct recursive function on the character list.
-/

/-- The regex class backslash-w, that is `[A-Za-z0-9_]`, by code point. -/
def isWordChar (c : Char) : Bool :=
  decide (97 ≤ c.toNat ∧ c.toNat ≤ 122) ||
  decide (65 ≤ c.toNat ∧ c.toNat ≤ 90) ||
  decide (48 ≤ c.toNat ∧ c.toNat ≤ 57) ||
  decide (c.toNat = 95)

/-- The JavaScript regex class backslash-s (whitespace), by code point:
TAB, LF, VT, FF, CR, SPACE, NBSP, OGHAM SPACE, U+2000..U+200A, LINE SEP,
PARA SEP, NARROW NBSP, MATH SPACE, IDEOGRAPHIC SPACE, BOM. -/
def isJsSpace (c : Char) : Bool :=
  decide (c.toNat = 9) || decide (c.toNat = 10) || decide (c.toNat = 11) ||
  decide (c.toNat = 12) || decide (c.toNat = 13) || decide (c.toNat = 32) ||
  decide (c.toNat = 160) || decide (c.toNat = 5760) ||
  decide (8192 ≤ c.toNat ∧ c.toNat ≤ 8202) ||
  decide (c.toNat = 8232) || decide (c.toNat = 8233) ||
  decide (c.toNat = 8239) || decide (c.toNat = 8287) ||
  decide (c.toNat = 12288) || decide (c.toNat = 65279)

/-- The regex class `[\s_]` used by the second replace. -/
def isSpaceOrUnderscore (c : Char) : Bool :=
  isJsSpace c || decide (c.toNat = 95)

/-- The character class `[^\w\s-]` is removed by the first replace; this
is the complementary class that survives it. -/
def keptByFilter (c : Char) : Bool :=
  isWordChar c || isJsSpace c || c == '-'

/-- Hyphen test, the regex `-` of the third and fourth replace. -/
def isHyphen (c : Char) : Bool := c == '-'

/-- `replace(/X+/g, repl)` for a one-character-class regex `X`: each
maximal run of characters satisfying `p` is replaced by the single
character `repl`.  The flag records whether we are inside a run. -/
def squashRuns (p : Char → Bool) (repl : Char) : List Char → Bool → List Char
  | [], _ => []
  | c :: cs, inRun =>
    if p c then
      if inRun then squashRuns p repl cs true
      else repl :: squashRuns p repl cs true
    else c :: squashRuns p repl cs false

/-- `String.prototype.trim`, which strips the JavaScript whitespace set
from both ends. -/
def jsTrim (l : List Char) : List Char :=
  List.rdropWhile isJsSpace (l.dropWhile isJsSpace)

/-- The slugify pipeline on a character list, one step per source line. -/
def slugifyList (l : List Char) : List Char :=
  let lowered := l.map Char.toLower
  let trimmed := jsTrim lowered
  let filtered := trimmed.filter keptByFilter
  let dashed := squashRuns isSpaceOrUnderscore '-' filtered false
  let collapsed := squashRuns isHyphen '-' dashed false
  List.rdropWhile isHyphen (collapsed.dropWhile isHyphen)

/-- `slugify` from `PageSegmentField` ("Converts a string to a URL-safe
slug"). -/
def slugify (s : String) : String := String.mk (slugifyList s.data)

example : slugify "Hello World!" = "hello-world" := by decide
example : slugify "  Foo_Bar--Baz!! " = "foo-bar-baz" := by decide
example : slugify "---" = "" := by decide
example : slugify "A  B__C" = "a-b-c" := by decide
example : slugify "" = "" := by decide

/-- Output character class of `slugify`: lowercase ASCII letter
(codes 97-122), ASCII digit (codes 48-57), or hyphen. -/
def isSlugChar (c : Char) : Bool :=
  decide (97 ≤ c.toNat ∧ c.toNat ≤ 122) ||
  decide (48 ≤ c.toNat ∧ c.toNat ≤ 57) ||
  c == '-'

/-- No two adjacent list entries both satisfy `p`. -/
def noAdjacent (p : Char → Bool) : List Char → Bool
  | a :: b :: rest => (!(p a && p b)) && noAdjacent p (b :: rest)
  | _ => true

theorem noAdjacent_cons_cons {p : Char → Bool} {a b : Char} {l : List Char} :
    noAdjacent p (a :: b :: l) = ((!(p a && p b)) && noAdjacent p (b :: l)) := rfl

theorem noAdjacent_tail {p : Char → Bool} {a : Char} {l : List Char}
    (h : noAdjacent p (a :: l) = true) : noAdjacent p l = true := by
  cases l with
  | nil => rfl
  | cons b bs =>
    rw [noAdjacent_cons_cons, Bool.and_eq_true] at h
    exact h.2

theorem noAdjacent_cons_of_not {p : Char → Bool} {a : Char} {l : List Char}
    (h1 : p a = false) (h2 : noAdjacent p l = true) :
    noAdjacent p (a :: l) = true := by
  cases l with
  | nil => rfl
  | cons b bs => rw [noAdjacent_cons_cons, h1]; simpa using h2

theorem noAdjacent_cons_of_head {p : Char → Bool} {a : Char} {l : List Char}
    (h1 : ∀ c, l.head? = some c → p c = false) (h2 : noAdjacent p l = true) :
    noAdjacent p (a :: l) = true := by
  cases l with
  | nil => rfl
  | cons b bs =>
    rw [noAdjacent_cons_cons, h1 b rfl]
    simpa using h2

theorem noAdjacent_append_left {p : Char → Bool} :
    ∀ (l t : List Char), noAdjacent p (l ++ t) = true → noAdjacent p l = true := by
  intro l t
  induction l with
  | nil => intro _; rfl
  | cons a l ih =>
    intro h
    cases l with
    | nil => rfl
    | cons b bs =>
      rw [List.cons_append, List.cons_append, noAdjacent_cons_cons,
        Bool.and_eq_true] at h
      rw [noAdjacent_cons_cons, h.1]
      simpa using ih (by rw [List.cons_append]; exact h.2)

theorem noAdjacent_dropWhile {p q : Char → Bool} :
    ∀ l : List Char, noAdjacent p l = true →
      noAdjacent p (l.dropWhile q) = true := by
  intro l
  induction l with
  | nil => intro _; rfl
  | cons a l ih =>
    intro h
    rw [List.dropWhile_cons]
    by_cases hq : q a = true
    · rw [if_pos hq]; exact ih (noAdjacent_tail h)
    · rw [if_neg hq]; exact h

theorem noAdjacent_rdropWhile {p q : Char → Bool} {l : List Char}
    (h : noAdjacent p l = true) :
    noAdjacent p (List.rdropWhile q l) = true := by
  obtain ⟨t, ht⟩ := List.rdropWhile_prefix q l
  exact noAdjacent_append_left _ t (by rw [ht]; exact h)

theorem mem_rdropWhile {q : Char → Bool} {l : List Char} {c : Char}
    (h : c ∈ List.rdropWhile q l) : c ∈ l := by
  obtain ⟨t, ht⟩ := List.rdropWhile_prefix q l
  rw [← ht]
  exact List.mem_append_left _ h

theorem head?_dropWhile_false {q : Char → Bool} {l : List Char} {c : Char}
    (hc : (l.dropWhile q).head? = some c) : q c = false := by
  have h := List.head?_dropWhile_not q l
  rw [hc] at h
  exact h

theorem getLast?_rdropWhile_false {q : Char → Bool} {l : List Char} {c : Char}
    (hc : (List.rdropWhile q l).getLast? = some c) : q c = false := by
  rw [List.rdropWhile, List.getLast?_reverse] at hc
  exact head?_dropWhile_false hc

theorem squashRuns_nil {p : Char → Bool} {repl : Char} {b : Bool} :
    squashRuns p repl [] b = [] := rfl

theorem squashRuns_cons {p : Char → Bool} {repl : Char} {c : Char}
    {cs : List Char} {b : Bool} :
    squashRuns p repl (c :: cs) b =
      if p c then
        (if b then squashRuns p repl cs true
         else repl :: squashRuns p repl cs true)
      else c :: squashRuns p repl cs false := rfl

theorem mem_squashRuns {p : Char → Bool} {repl : Char} :
    ∀ (l : List Char) (b : Bool) (c : Char), c ∈ squashRuns p repl l b →
      c = repl ∨ (c ∈ l ∧ p c = false) := by
  intro l
  induction l with
  | nil => intro b c h; rw [squashRuns_nil] at h; cases h
  | cons a as ih =>
    intro b c h
    rw [squashRuns_cons] at h
    by_cases hpa : p a = true
    · rw [if_pos hpa] at h
      have h' : c ∈ squashRuns p repl as true ∨ c = repl := by
        cases b with
        | true => rw [if_pos rfl] at h; exact Or.inl h
        | false =>
          rw [if_neg (by simp)] at h
          rcases List.mem_cons.mp h with h | h
          · exact Or.inr h
          · exact Or.inl h
      rcases h' with h' | h'
      · rcases ih true c h' with h'' | ⟨hm, hp⟩
        · exact Or.inl h''
        · exact Or.inr ⟨List.mem_cons_of_mem _ hm, hp⟩
      · exact Or.inl h'
    · rw [if_neg hpa] at h
      rcases List.mem_cons.mp h with h | h
      · subst h
        exact Or.inr ⟨List.mem_cons_self _ _, by simpa using hpa⟩
      · rcases ih false c h with h'' | ⟨hm, hp⟩
        · exact Or.inl h''
        · exact Or.inr ⟨List.mem_cons_of_mem _ hm, hp⟩

theorem head?_squashRuns_true {p : Char → Bool} {repl : Char} :
    ∀ (l : List Char) (c : Char),
      (squashRuns p repl l true).head? = some c → p c = false := by
  intro l
  induction l with
  | nil => intro c h; rw [squashRuns_nil] at h; cases h
  | cons a as ih =>
    intro c h
    rw [squashRuns_cons] at h
    by_cases hpa : p a = true
    · rw [if_pos hpa, if_pos rfl] at h
      exact ih c h
    · rw [if_neg hpa] at h
      rw [List.head?_cons, Option.some_inj] at h
      subst h
      simpa using hpa

theorem noAdjacent_squashRuns {p : Char → Bool} {repl : Char} :
    ∀ (l : List Char) (b : Bool),
      noAdjacent p (squashRuns p repl l b) = true := by
  intro l
  induction l with
  | nil => intro b; rw [squashRuns_nil]; rfl
  | cons a as ih =>
    intro b
    rw [squashRuns_cons]
    by_cases hpa : p a = true
    · rw [if_pos hpa]
      cases b with
      | true => rw [if_pos rfl]; exact ih true
      | false =>
        rw [if_neg (by simp)]
        exact noAdjacent_cons_of_head (fun c hc => head?_squashRuns_true as c hc)
          (ih true)
    · rw [if_neg hpa]
      exact noAdjacent_cons_of_not (by simpa using hpa) (ih false)

theorem squashRuns_eq_self {p : Char → Bool} {repl : Char} :
    ∀ (l : List Char) (b : Bool), (∀ c ∈ l, p c = false) →
      squashRuns p repl l b = l := by
  intro l
  induction l with
  | nil => intro b _; rfl
  | cons a as ih =>
    intro b h
    rw [squashRuns_cons, if_neg (by simp [h a (List.mem_cons_self _ _)])]
    rw [ih false (fun c hc => h c (List.mem_cons_of_mem _ hc))]

theorem squashRuns_hyphen_eq_self :
    ∀ l : List Char, noAdjacent isHyphen l = true →
      squashRuns isHyphen '-' l false = l := by
  intro l
  induction l with
  | nil => intro _; rfl
  | cons a as ih =>
    intro h
    rw [squashRuns_cons]
    by_cases hpa : isHyphen a = true
    · rw [if_pos hpa]
      have ha : a = '-' := by simpa [isHyphen] using hpa
      subst ha
      cases as with
      | nil => rfl
      | cons d ds =>
        rw [noAdjacent_cons_cons, Bool.and_eq_true] at h
        have hd : isHyphen d = false := by
          have h1 := h.1
          simp only [Bool.not_eq_true'] at h1
          simpa [isHyphen] using h1
        have hrec : squashRuns isHyphen '-' (d :: ds) false = d :: ds :=
          ih h.2
        rw [squashRuns_cons, if_neg (by simp [hd])] at hrec
        have hds : squashRuns isHyphen '-' ds false = ds := by
          injection hrec
        rw [squashRuns_cons]
        simp [hd, hds]
    · rw [if_neg hpa]
      rw [ih (noAdjacent_tail h)]

theorem toNat_ofNat_of_valid {n : Nat} (h : n < 55296) :
    (Char.ofNat n).toNat = n := by
  rw [Char.ofNat, dif_pos (Or.inl h)]
  rfl

theorem toLower_toNat_not_upper (a : Char) :
    ¬(65 ≤ (Char.toLower a).toNat ∧ (Char.toLower a).toNat ≤ 90) := by
  simp only [Char.toLower]
  split
  · next h =>
    have hv : (Char.ofNat (Char.toNat a + 32)).toNat = Char.toNat a + 32 :=
      toNat_ofNat_of_valid (by omega)
    omega
  · next h => omega

theorem toLower_eq_self {c : Char} (h : ¬(65 ≤ c.toNat ∧ c.toNat ≤ 90)) :
    Char.toLower c = c := by
  simp only [Char.toLower]
  rw [if_neg (show ¬(Char.toNat c ≥ 65 ∧ Char.toNat c ≤ 90) by omega)]

theorem isSlugChar_codes {c : Char} (h : isSlugChar c = true) :
    (97 ≤ c.toNat ∧ c.toNat ≤ 122) ∨ (48 ≤ c.toNat ∧ c.toNat ≤ 57) ∨
      c.toNat = 45 := by
  simp only [isSlugChar, Bool.or_eq_true, decide_eq_true_eq, beq_iff_eq] at h
  rcases h with (h | h) | h
  · exact Or.inl h
  · exact Or.inr (Or.inl h)
  · subst h
    exact Or.inr (Or.inr (by decide))

theorem isSlugChar_not_space {c : Char} (h : isSlugChar c = true) :
    isJsSpace c = false := by
  simp only [isJsSpace, Bool.or_eq_false_iff, decide_eq_false_iff_not]
  rcases isSlugChar_codes h with h' | h' | h' <;> omega

theorem isSlugChar_not_spaceUnderscore {c : Char} (h : isSlugChar c = true) :
    isSpaceOrUnderscore c = false := by
  simp only [isSpaceOrUnderscore, Bool.or_eq_false_iff,
    decide_eq_false_iff_not]
  refine ⟨by simpa [isJsSpace, Bool.or_eq_false_iff,
    decide_eq_false_iff_not] using isSlugChar_not_space h, ?_⟩
  rcases isSlugChar_codes h with h' | h' | h' <;> omega

theorem isSlugChar_kept {c : Char} (h : isSlugChar c = true) :
    keptByFilter c = true := by
  simp only [isSlugChar, Bool.or_eq_true, decide_eq_true_eq,
    beq_iff_eq] at h
  simp only [keptByFilter, isWordChar, Bool.or_eq_true, decide_eq_true_eq,
    beq_iff_eq]
  tauto

theorem map_toLower_eq_self {l : List Char}
    (h : ∀ c ∈ l, isSlugChar c = true) : l.map Char.toLower = l := by
  induction l with
  | nil => rfl
  | cons a as ih =>
    have ha := isSlugChar_codes (h a (List.mem_cons_self _ _))
    have hup : ¬(65 ≤ a.toNat ∧ a.toNat ≤ 90) := by
      rcases ha with h' | h' | h' <;> omega
    rw [List.map_cons, toLower_eq_self hup,
      ih (fun c hc => h c (List.mem_cons_of_mem _ hc))]

theorem dropWhile_eq_self_of {q : Char → Bool} {l : List Char}
    (h : ∀ c ∈ l, q c = false) : l.dropWhile q = l := by
  cases l with
  | nil => rfl
  | cons a as =>
    exact List.dropWhile_cons_of_neg (by simp [h a (List.mem_cons_self _ _)])

theorem rdropWhile_eq_self_of {q : Char → Bool} {l : List Char}
    (h : ∀ c ∈ l, q c = false) : List.rdropWhile q l = l := by
  rw [List.rdropWhile,
    dropWhile_eq_self_of (fun c hc => h c (List.mem_reverse.mp hc)),
    List.reverse_reverse]

theorem slugifyList_mem_isSlugChar {l : List Char} :
    ∀ c ∈ slugifyList l, isSlugChar c = true := by
  intro c hc
  simp only [slugifyList] at hc
  have hc1 := mem_rdropWhile hc
  have hc2 := List.dropWhile_subset _ hc1
  rcases mem_squashRuns _ _ _ hc2 with rfl | ⟨hc3, hH⟩
  · decide
  rcases mem_squashRuns _ _ _ hc3 with rfl | ⟨hc4, hSU⟩
  · simp [isHyphen] at hH
  obtain ⟨hc5, hkept⟩ := List.mem_filter.mp hc4
  have hc6 : c ∈ l.map Char.toLower := by
    simp only [jsTrim] at hc5
    exact List.dropWhile_subset _ (mem_rdropWhile hc5)
  have hup : ¬(65 ≤ c.toNat ∧ c.toNat ≤ 90) := by
    obtain ⟨a, _, rfl⟩ := List.mem_map.mp hc6
    exact toLower_toNat_not_upper a
  have hSU' : isJsSpace c = false ∧ ¬c.toNat = 95 := by
    simpa only [isSpaceOrUnderscore, Bool.or_eq_false_iff,
      decide_eq_false_iff_not] using hSU
  simp only [keptByFilter, Bool.or_eq_true] at hkept
  simp only [isSlugChar, Bool.or_eq_true, decide_eq_true_eq, beq_iff_eq]
  rcases hkept with (hw | hs) | hh
  · simp only [isWordChar, Bool.or_eq_true, decide_eq_true_eq] at hw
    have hor : (97 ≤ c.toNat ∧ c.toNat ≤ 122) ∨ (48 ≤ c.toNat ∧ c.toNat ≤ 57) := by
      rcases hw with ((h' | h') | h') | h' <;> omega
    rcases hor with h' | h'
    · exact Or.inl (Or.inl h')
    · exact Or.inl (Or.inr h')
  · rw [hSU'.1] at hs
    cases hs
  · rw [beq_iff_eq] at hh
    exact Or.inr hh

theorem head?_rdropWhile_dropWhile {q : Char → Bool} {l : List Char}
    {c : Char} (h : (List.rdropWhile q (l.dropWhile q)).head? = some c) :
    q c = false := by
  obtain ⟨t, ht⟩ := List.rdropWhile_prefix q (l.dropWhile q)
  cases hfin : List.rdropWhile q (l.dropWhile q) with
  | nil => rw [hfin] at h; cases h
  | cons a as =>
    rw [hfin, List.head?_cons, Option.some_inj] at h
    rw [hfin] at ht
    have hm : (l.dropWhile q).head? = some a := by
      rw [← ht, List.cons_append, List.head?_cons]
    rw [← h]
    exact head?_dropWhile_false hm

theorem slugifyList_head {l : List Char} {c : Char}
    (h : (slugifyList l).head? = some c) : isHyphen c = false := by
  simp only [slugifyList] at h
  exact head?_rdropWhile_dropWhile h

theorem slugifyList_last {l : List Char} {c : Char}
    (h : (slugifyList l).getLast? = some c) : isHyphen c = false := by
  simp only [slugifyList] at h
  exact getLast?_rdropWhile_false h

theorem slugifyList_noAdjacent (l : List Char) :
    noAdjacent isHyphen (slugifyList l) = true := by
  simp only [slugifyList]
  exact noAdjacent_rdropWhile (noAdjacent_dropWhile _ (noAdjacent_squashRuns _ false))

theorem slugifyList_eq_self {r : List Char}
    (hmem : ∀ c ∈ r, isSlugChar c = true)
    (hhead : r.head? ≠ some '-')
    (hlast : r.getLast? ≠ some '-')
    (hadj : noAdjacent isHyphen r = true) :
    slugifyList r = r := by
  have hns : ∀ c ∈ r, isJsSpace c = false :=
    fun c hc => isSlugChar_not_space (hmem c hc)
  have h1 : r.map Char.toLower = r := map_toLower_eq_self hmem
  have h2 : jsTrim r = r := by
    rw [jsTrim, dropWhile_eq_self_of hns]
    exact rdropWhile_eq_self_of hns
  have h3 : r.filter keptByFilter = r :=
    List.filter_eq_self.mpr (fun c hc => isSlugChar_kept (hmem c hc))
  have h4 : squashRuns isSpaceOrUnderscore '-' r false = r :=
    squashRuns_eq_self r false
      (fun c hc => isSlugChar_not_spaceUnderscore (hmem c hc))
  have h5 : squashRuns isHyphen '-' r false = r :=
    squashRuns_hyphen_eq_self r hadj
  have h6 : r.dropWhile isHyphen = r := by
    cases r with
    | nil => rfl
    | cons a as =>
      have ha : isHyphen a = false := by
        by_contra hcon
        rw [Bool.not_eq_false] at hcon
        have ha' : a = '-' := by simpa [isHyphen] using hcon
        exact hhead (by rw [List.head?_cons, ha'])
      exact List.dropWhile_cons_of_neg (by simp [ha])
  have h7 : List.rdropWhile isHyphen r = r := by
    rw [List.rdropWhile_eq_self_iff]
    intro hl hcon
    have hg : r.getLast? = some (r.getLast hl) := List.getLast?_eq_getLast r hl
    have heq : r.getLast hl = '-' := by simpa [isHyphen] using hcon
    exact hlast (by rw [hg, heq])
  simp only [slugifyList]
  rw [h1, h2, h3, h4, h5, h6, h7]

/-- **C10**: For every input string `s`, `slugify` produces a string made
only of lowercase ASCII letters, digits and hyphens, with no leading
hyphen, no trailing hyphen and no two consecutive hyphens, and it is
idempotent: `slugify (slugify s) = slugify s`. -/
theorem slugify_shape_and_idempotent (s : String) :
    (∀ c ∈ (slugify s).data, isSlugChar c = true) ∧
    (slugify s).data.head? ≠ some '-' ∧
    (slugify s).data.getLast? ≠ some '-' ∧
    noAdjacent isHyphen (slugify s).data = true ∧
    slugify (slugify s) = slugify s := by
  have hdata : (slugify s).data = slugifyList s.data := rfl
  have hmem : ∀ c ∈ slugifyList s.data, isSlugChar c = true :=
    slugifyList_mem_isSlugChar
  have hhead : (slugifyList s.data).head? ≠ some '-' := by
    intro hcon
    have := slugifyList_head hcon
    simp [isHyphen] at this
  have hlast : (slugifyList s.data).getLast? ≠ some '-' := by
    intro hcon
    have := slugifyList_last hcon
    simp [isHyphen] at this
  refine ⟨by rw [hdata]; exact hmem, by rw [hdata]; exact hhead,
    by rw [hdata]; exact hlast, by rw [hdata]; exact slugifyList_noAdjacent _, ?_⟩
  show String.mk (slugifyList (slugify s).data) = slugify s
  rw [hdata, slugifyList_eq_self hmem hhead hlast (slugifyList_noAdjacent _)]
  rfl

/-! ## Homepage-uniqueness hook (from `plugin/hooks/isHomepageUnique.ts`)

`createIsHomepageUniqueHook` returns a `beforeChange` hook.  The hook
receives the proposed `data`, the prior committed document
(`originalDoc`, absent on create), the request (giving access to
`payload.find`), the collection, and a context bag.  The embedding
models the document store seen through `payload.find` as a function from
collection slug to the list of stored documents, and `find` with
`limit: 1` as `List.find?`.  The outcome records the returned data or
the thrown `HomepageConflictError`, plus whether the store was queried.
-/

/-- Information about an existing homepage page (`ExistingHomepageInfo`). -/
structure ExistingHomepageInfo where
  id : String
  title : String
  slug : String
deriving DecidableEq, Repr

/-- The `HomepageConflictError` thrown on a conflict: an `APIError` with
the given message, HTTP status 400, a data payload carrying
`existingHomepage`, and `isPublic := true`. -/
structure HomepageConflictError where
  message : String
  status : Nat
  existingHomepage : ExistingHomepageInfo
  isPublic : Bool
  name : String
deriving DecidableEq, Repr

/-- The `HomepageConflictError` constructor. -/
def mkHomepageConflictError (info : ExistingHomepageInfo) : HomepageConflictError :=
  { message := "Another page is already set as homepage: \"" ++ info.title
      ++ "\" (/" ++ info.slug ++ ")"
  , status := 400
  , existingHomepage := info
  , isPublic := true
  , name := "HomepageConflictError" }

/-- A stored page document as the hook reads it: `id`, optional `title`
and `slug`, and the `isHomepage` flag (an absent or non-`true` field
behaves as `false` under the `equals: true` query and the `=== true`
test). -/
structure PageDoc where
  id : String
  title : Option String
  slug : Option String
  isHomepage : Bool
deriving DecidableEq, Repr

/-- The proposed write data: the `isHomepage` field (absent, `true` or
`false`) plus the remaining fields, opaque to the hook. -/
structure WriteData where
  isHomepage : Option Bool
  otherFields : List (String × String)
deriving DecidableEq, Repr

/-- The hook context bag; `skipIsHomepageHook` is the bypass flag. -/
structure HookContext where
  skipIsHomepageHook : Bool
deriving DecidableEq, Repr

/-- What the hook does: return the data unchanged, or throw a
`HomepageConflictError`. -/
inductive HookResult where
  | pass (data : WriteData)
  | conflict (e : HomepageConflictError)
deriving DecidableEq, Repr

/-- Hook result together with whether `payload.find` was called. -/
structure HookOutcome where
  result : HookResult
  queried : Bool
deriving DecidableEq, Repr

/-- JavaScript `a || b` for an optional string: an absent (or null) or
empty string is falsy and falls back to the default.  Used for
`options.collectionSlug || collection.slug` and for the conflict
payload's `existing.title || 'Untitled'` and `existing.slug || ''`. -/
def jsStrOrElse (a : Option String) (b : String) : String :=
  match a with
  | some s => if s == "" then b else s
  | none => b

/-- `originalDoc?.isHomepage === true`: the prior document's homepage
flag, `false` when there is no prior document. -/
def wasHomepageOf (originalDoc : Option PageDoc) : Bool :=
  match originalDoc with
  | some o => o.isHomepage
  | none => false

/-- The `where` clause of the hook's query: `isHomepage equals true`,
and `id not_equals originalDoc.id` when `originalDoc?.id` is truthy
(the exclusion clause is spread in only under that guard; an empty
string id is falsy and drops it). -/
def homepageQueryPred (originalDoc : Option PageDoc) (d : PageDoc) : Bool :=
  d.isHomepage &&
    (match originalDoc with
     | some o => if o.id == "" then true else d.id != o.id
     | none => true)

/-- The hook produced by `createIsHomepageUniqueHook`, shallowly
embedded.  `optCollectionSlug` is `options.collectionSlug`,
`collectionSlug` the hook's own collection, and `db` the document store
consulted through `req.payload.find` (with `limit: 1` embedded as
`List.find?`). -/
def runIsHomepageUniqueHook (optCollectionSlug : Option String)
    (collectionSlug : String) (ctx : HookContext) (data : WriteData)
    (originalDoc : Option PageDoc) (db : String → List PageDoc) :
    HookOutcome :=
  if ctx.skipIsHomepageHook then ⟨.pass data, false⟩
  else
    let isSettingHomepage := data.isHomepage == some true
    let wasHomepage := wasHomepageOf originalDoc
    if !isSettingHomepage || wasHomepage then ⟨.pass data, false⟩
    else
      let targetSlug := jsStrOrElse optCollectionSlug collectionSlug
      match (db targetSlug).find? (homepageQueryPred originalDoc) with
      | some existing =>
          ⟨.conflict (mkHomepageConflictError
            { id := existing.id
            , title := jsStrOrElse existing.title "Untitled"
            , slug := jsStrOrElse existing.slug "" }), true⟩
      | none => ⟨.pass data, true⟩

/-- One host `payload.update` call, as issued by `unsetHomepage`. -/
structure UpdateCall where
  collection : String
  id : String
  data : WriteData
  context : HookContext
deriving DecidableEq, Repr

/-- `unsetHomepage`: the list of host update calls the operation
issues. -/
def unsetHomepage (collectionSlug : String) (pageId : String) :
    List UpdateCall :=
  [ { collection := collectionSlug
    , id := pageId
    , data := { isHomepage := some false, otherFields := [] }
    , context := { skipIsHomepageHook := true } } ]

example :
    runIsHomepageUniqueHook none "pages" ⟨false⟩ ⟨some true, []⟩ none
      (fun _ => [⟨"1", some "Home", some "home", true⟩]) =
    ⟨.conflict (mkHomepageConflictError ⟨"1", "Home", "home"⟩), true⟩ := by
  decide

example :
    runIsHomepageUniqueHook none "pages" ⟨false⟩ ⟨some true, []⟩
      (some ⟨"1", none, none, false⟩)
      (fun _ => [⟨"1", some "Home", some "home", true⟩]) =
    ⟨.pass ⟨some true, []⟩, true⟩ := by
  decide

example :
    runIsHomepageUniqueHook none "pages" ⟨false⟩ ⟨some true, []⟩ none
      (fun _ => [⟨"1", some "", some "home", true⟩]) =
    ⟨.conflict (mkHomepageConflictError ⟨"1", "Untitled", "home"⟩), true⟩ := by
  decide

/-- **C1**: For every write that sets `isHomepage` to `true` on a
document that was not previously the homepage, with the bypass flag
absent, if some other document of the target collection (different id)
has `isHomepage = true`, the hook aborts the write with a
`HomepageConflictError`: status 400, `isPublic`, and a data payload
carrying the existing homepage's id, its title (default `"Untitled"`
when absent or empty — JS falsiness) and its slug (default `""`).  The
prior document, when present, is assumed to have a truthy (nonempty)
id, as host document ids are. -/
theorem homepage_conflict_on_second_homepage
    (opt : Option String) (cs : String) (ctx : HookContext)
    (data : WriteData) (orig : Option PageDoc) (db : String → List PageDoc)
    (hskip : ctx.skipIsHomepageHook = false)
    (hset : data.isHomepage = some true)
    (hnotprev : ∀ o, orig = some o → o.isHomepage = false)
    (horigid : ∀ o, orig = some o → o.id ≠ "")
    (hex : ∃ d ∈ db (jsStrOrElse opt cs), d.isHomepage = true ∧
      ∀ o, orig = some o → d.id ≠ o.id) :
    ∃ e d,
      runIsHomepageUniqueHook opt cs ctx data orig db = ⟨.conflict e, true⟩ ∧
      d ∈ db (jsStrOrElse opt cs) ∧ d.isHomepage = true ∧
      (∀ o, orig = some o → d.id ≠ o.id) ∧
      e = mkHomepageConflictError
        { id := d.id, title := jsStrOrElse d.title "Untitled"
        , slug := jsStrOrElse d.slug "" } ∧
      e.status = 400 ∧ e.isPublic = true ∧
      e.existingHomepage =
        { id := d.id, title := jsStrOrElse d.title "Untitled"
        , slug := jsStrOrElse d.slug "" } := by
  obtain ⟨d0, hd0mem, hd0home, hd0ne⟩ := hex
  have hpred : homepageQueryPred orig d0 = true := by
    simp only [homepageQueryPred, Bool.and_eq_true]
    refine ⟨hd0home, ?_⟩
    cases orig with
    | none => rfl
    | some o =>
      have hid : (o.id == "") = false := by
        rw [beq_eq_false_iff_ne]
        exact horigid o rfl
      simp [hid, bne_iff_ne]
      exact hd0ne o rfl
  have hfind : ((db (jsStrOrElse opt cs)).find? (homepageQueryPred orig)).isSome := by
    rw [List.find?_isSome]
    exact ⟨d0, hd0mem, hpred⟩
  obtain ⟨ex, hfeq⟩ := Option.isSome_iff_exists.mp hfind
  have hexmem : ex ∈ db (jsStrOrElse opt cs) := List.mem_of_find?_eq_some hfeq
  have hexpred : homepageQueryPred orig ex = true := List.find?_some hfeq
  have hexhome : ex.isHomepage = true := by
    have h' := hexpred
    simp only [homepageQueryPred, Bool.and_eq_true] at h'
    exact h'.1
  have hexne : ∀ o, orig = some o → ex.id ≠ o.id := by
    intro o ho
    have h' := hexpred
    rw [ho] at h'
    simp only [homepageQueryPred, Bool.and_eq_true] at h'
    have h2 := h'.2
    have hid : (o.id == "") = false := by
      rw [beq_eq_false_iff_ne]
      exact horigid o ho
    simp [hid, bne_iff_ne] at h2
    exact h2
  have hwas : wasHomepageOf orig = false := by
    cases orig with
    | none => rfl
    | some o => exact hnotprev o rfl
  refine ⟨mkHomepageConflictError
      { id := ex.id, title := jsStrOrElse ex.title "Untitled"
      , slug := jsStrOrElse ex.slug "" },
    ex, ?_, hexmem, hexhome, hexne, rfl, rfl, rfl, rfl⟩
  simp [runIsHomepageUniqueHook, hskip, hset, hwas, hfeq]

/-- Witness for C1: a concrete collection holding one homepage `"1"`
and an update that tries to make page `"2"` the homepage. -/
theorem homepage_conflict_on_second_homepage_witness :
    ∃ e d,
      runIsHomepageUniqueHook none "pages" ⟨false⟩ ⟨some true, []⟩
          (some ⟨"2", some "About", some "about", false⟩)
          (fun _ => [⟨"1", some "Home", some "home", true⟩]) =
        ⟨.conflict e, true⟩ ∧
      d ∈ (fun _ : String => [(⟨"1", some "Home", some "home", true⟩ : PageDoc)])
          (jsStrOrElse none "pages") ∧
      d.isHomepage = true ∧
      (∀ o, (some (⟨"2", some "About", some "about", false⟩ : PageDoc)) = some o →
        d.id ≠ o.id) ∧
      e = mkHomepageConflictError
        { id := d.id, title := jsStrOrElse d.title "Untitled"
        , slug := jsStrOrElse d.slug "" } ∧
      e.status = 400 ∧ e.isPublic = true ∧
      e.existingHomepage =
        { id := d.id, title := jsStrOrElse d.title "Untitled"
        , slug := jsStrOrElse d.slug "" } :=
  homepage_conflict_on_second_homepage none "pages" ⟨false⟩ ⟨some true, []⟩
    (some ⟨"2", some "About", some "about", false⟩)
    (fun _ => [⟨"1", some "Home", some "home", true⟩])
    rfl rfl (fun o ho => by cases ho; rfl) (fun o ho => by cases ho; decide)
    ⟨⟨"1", some "Home", some "home", true⟩, by simp, rfl,
      fun o ho => by cases ho; decide⟩

/-- **C2**: Whenever the incoming `isHomepage` is not `true`, or the
prior document already had `isHomepage = true`, the hook returns the
proposed data unchanged without querying the collection — in particular
re-saving the current homepage is an idempotent no-op. -/
theorem homepage_hook_pass_through
    (opt : Option String) (cs : String) (ctx : HookContext)
    (data : WriteData) (orig : Option PageDoc) (db : String → List PageDoc)
    (h : data.isHomepage ≠ some true ∨ ∃ o, orig = some o ∧ o.isHomepage = true) :
    runIsHomepageUniqueHook opt cs ctx data orig db = ⟨.pass data, false⟩ := by
  by_cases hskip : ctx.skipIsHomepageHook = true
  · simp [runIsHomepageUniqueHook, hskip]
  · have hs : ctx.skipIsHomepageHook = false := by simpa using hskip
    rcases h with h | ⟨o, ho, hh⟩
    · have hset : (data.isHomepage == some true) = false := by
        rw [beq_eq_false_iff_ne]
        exact h
      simp [runIsHomepageUniqueHook, hs, hset]
    · subst ho
      simp [runIsHomepageUniqueHook, wasHomepageOf, hs, hh]

/-- Witness for C2: re-saving the document that is already the homepage
with `isHomepage: true` passes through without a query. -/
theorem homepage_hook_pass_through_witness :
    runIsHomepageUniqueHook none "pages" ⟨false⟩ ⟨some true, []⟩
        (some ⟨"1", some "Home", some "home", true⟩)
        (fun _ => [⟨"1", some "Home", some "home", true⟩]) =
      ⟨.pass ⟨some true, []⟩, false⟩ :=
  homepage_hook_pass_through none "pages" ⟨false⟩ ⟨some true, []⟩
    (some ⟨"1", some "Home", some "home", true⟩)
    (fun _ => [⟨"1", some "Home", some "home", true⟩])
    (Or.inr ⟨⟨"1", some "Home", some "home", true⟩, rfl, rfl⟩)

/-- **C3**: `unsetHomepage` issues exactly one host update, setting
`isHomepage` to `false` with the bypass flag in the write context, and
any hook invocation whose context carries the bypass flag passes the
write through unchanged without querying — so `unsetHomepage` never
re-triggers the conflict check on itself. -/
theorem unsetHomepage_single_bypassed_update (cs pid : String) :
    unsetHomepage cs pid =
      [{ collection := cs, id := pid
       , data := { isHomepage := some false, otherFields := [] }
       , context := { skipIsHomepageHook := true } }] ∧
    ∀ (opt : Option String) (cs' : String) (data : WriteData)
      (orig : Option PageDoc) (db : String → List PageDoc),
      runIsHomepageUniqueHook opt cs' { skipIsHomepageHook := true }
          data orig db = ⟨.pass data, false⟩ := by
  refine ⟨rfl, ?_⟩
  intro opt cs' data orig db
  simp [runIsHomepageUniqueHook]

/-! ## REST endpoint handlers (from the Puck API endpoint handler module)

The seven handlers (`createListHandler`, `createCreateHandler`,
`createGetHandler`, `createUpdateHandler`, `createDeleteHandler`,
`createVersionsHandler`, `createRestoreHandler`) each first check that
the requested collection is in `options.collections`, then call exactly
one `req.payload` operation inside a try/catch that maps any thrown
error to a 500 `{ error }` JSON response.

The host CMS operations are modelled as an oracle of `Except`-valued
functions (a thrown host error is `Except.error msg` with `msg` the
error message), and each handler output records both the HTTP response
and the list of host calls performed, so that "does not touch the
document store" is the statement `hostCalls = []`.  `Response.json`
without an explicit status is status 200.  Handlers are total Lean
functions: by construction no host error escapes past them.
-/

/-- A version record as returned by the host versioning system
(`PageVersion` in the client code). -/
structure VersionRecord where
  id : String
  parent : String
  versionTitle : Option String
  versionStatus : Option String
  createdAt : String
  updatedAt : String
  autosave : Bool
deriving DecidableEq, Repr

/-- A parsed JSON request body, restricted to the fields the handlers
read: the `_status` field, the `versionId` field, and the remaining
fields (opaque key/value pairs, the `...data` rest). -/
structure RequestBody where
  statusField : Option String
  versionId : Option String
  rest : List (String × String)
deriving DecidableEq, Repr

/-- One call to the host document store, with the arguments the
handlers pass. -/
inductive HostCall where
  | findCall (collection : String) (draft : Bool) (depth limit : Nat)
  | createCall (collection : String) (data : RequestBody) (draft : Bool)
  | findByIdCall (collection id : String) (draft : Bool) (depth : Nat)
  | updateCall (collection id : String) (data : List (String × String))
      (storedStatus : String) (draft : Bool)
  | deleteCall (collection id : String)
  | findVersionsCall (collection parentId sort : String) (limit : Nat)
  | restoreVersionCall (collection versionId : String)
deriving DecidableEq, Repr

/-- The host document store oracle: each operation either succeeds or
throws (modelled as `Except.error` carrying the error message). -/
structure Host where
  find : String → Bool → Nat → Nat → Except String (List PageDoc)
  create : String → RequestBody → Bool → Except String PageDoc
  findByID : String → String → Bool → Nat → Except String PageDoc
  update : String → String → List (String × String) → String → Bool →
    Except String PageDoc
  delete : String → String → Except String Unit
  findVersions : String → String → String → Nat →
    Except String (List VersionRecord)
  restoreVersion : String → String → Except String PageDoc

/-- JSON response bodies produced by the handlers. -/
inductive ResBody where
  | errorBody (msg : String)
  | findResult (docs : List PageDoc)
  | docBody (doc : PageDoc)
  | docPublishedBody (doc : PageDoc) (published : Bool)
  | successBody
  | versionsBody (versions : List VersionRecord)
deriving DecidableEq, Repr

/-- An HTTP response: status and JSON body. -/
structure HandlerResponse where
  status : Nat
  body : ResBody
deriving DecidableEq, Repr

/-- A handler invocation outcome: the response plus the host calls it
performed. -/
structure HandlerOutput where
  response : HandlerResponse
  hostCalls : List HostCall
deriving DecidableEq, Repr

/-- The 400 message for a collection missing from the allow-list. -/
def notConfiguredMsg (collection : String) : String :=
  "Collection \x27" ++ collection ++ "\x27 is not configured for Puck"

/-- `GET /api/puck/:collection` — list documents, draft-inclusive,
depth 0, limit 100. -/
def createListHandler (collections : List String) (host : Host)
    (collection : String) : HandlerOutput :=
  if collections.contains collection then
    match host.find collection true 0 100 with
    | .ok docs => ⟨⟨200, .findResult docs⟩, [.findCall collection true 0 100]⟩
    | .error msg => ⟨⟨500, .errorBody msg⟩, [.findCall collection true 0 100]⟩
  else ⟨⟨400, .errorBody (notConfiguredMsg collection)⟩, []⟩

/-- `POST /api/puck/:collection` — create a document, always as
draft. -/
def createCreateHandler (collections : List String) (host : Host)
    (collection : String) (body : RequestBody) : HandlerOutput :=
  if collections.contains collection then
    match host.create collection body true with
    | .ok doc => ⟨⟨200, .docBody doc⟩, [.createCall collection body true]⟩
    | .error msg => ⟨⟨500, .errorBody msg⟩, [.createCall collection body true]⟩
  else ⟨⟨400, .errorBody (notConfiguredMsg collection)⟩, []⟩

/-- `GET /api/puck/:collection/:id` — fetch one document,
draft-inclusive, depth 0. -/
def createGetHandler (collections : List String) (host : Host)
    (collection id : String) : HandlerOutput :=
  if collections.contains collection then
    match host.findByID collection id true 0 with
    | .ok doc => ⟨⟨200, .docBody doc⟩, [.findByIdCall collection id true 0]⟩
    | .error msg => ⟨⟨500, .errorBody msg⟩, [.findByIdCall collection id true 0]⟩
  else ⟨⟨400, .errorBody (notConfiguredMsg collection)⟩, []⟩

/-- `PATCH /api/puck/:collection/:id` — update; `shouldPublish` is
`_status === 'published'`; the write stores
`_status: shouldPublish ? 'published' : 'draft'` with
`draft: !shouldPublish`. -/
def createUpdateHandler (collections : List String) (host : Host)
    (collection id : String) (body : RequestBody) : HandlerOutput :=
  if collections.contains collection then
    let shouldPublish := body.statusField == some "published"
    let storedStatus := if shouldPublish then "published" else "draft"
    match host.update collection id body.rest storedStatus (!shouldPublish) with
    | .ok doc =>
        ⟨⟨200, .docPublishedBody doc shouldPublish⟩,
         [.updateCall collection id body.rest storedStatus (!shouldPublish)]⟩
    | .error msg =>
        ⟨⟨500, .errorBody msg⟩,
         [.updateCall collection id body.rest storedStatus (!shouldPublish)]⟩
  else ⟨⟨400, .errorBody (notConfiguredMsg collection)⟩, []⟩

/-- `DELETE /api/puck/:collection/:id` — delete a document. -/
def createDeleteHandler (collections : List String) (host : Host)
    (collection id : String) : HandlerOutput :=
  if collections.contains collection then
    match host.delete collection id with
    | .ok _ => ⟨⟨200, .successBody⟩, [.deleteCall collection id]⟩
    | .error msg => ⟨⟨500, .errorBody msg⟩, [.deleteCall collection id]⟩
  else ⟨⟨400, .errorBody (notConfiguredMsg collection)⟩, []⟩

/-- `GET /api/puck/:collection/:id/versions` — list versions of the
parent document, sorted `-updatedAt`, limit 20; responds with
`{ versions: versions.docs }`. -/
def createVersionsHandler (collections : List String) (host : Host)
    (collection id : String) : HandlerOutput :=
  if collections.contains collection then
    match host.findVersions collection id "-updatedAt" 20 with
    | .ok vs =>
        ⟨⟨200, .versionsBody vs⟩, [.findVersionsCall collection id "-updatedAt" 20]⟩
    | .error msg =>
        ⟨⟨500, .errorBody msg⟩, [.findVersionsCall collection id "-updatedAt" 20]⟩
  else ⟨⟨400, .errorBody (notConfiguredMsg collection)⟩, []⟩

/-- JavaScript falsiness of the `versionId` body field: absent or
`null` (`none`) or the empty string. -/
def isJsFalsyStr (v : Option String) : Bool :=
  match v with
  | none => true
  | some s => s == ""

/-- `POST /api/puck/:collection/:id/restore` — restore a version; a
falsy `versionId` is a 400 before any host call. -/
def createRestoreHandler (collections : List String) (host : Host)
    (collection id : String) (body : RequestBody) : HandlerOutput :=
  if collections.contains collection then
    if isJsFalsyStr body.versionId then
      ⟨⟨400, .errorBody "Missing versionId in request body"⟩, []⟩
    else
      match body.versionId with
      | some vid =>
          (match host.restoreVersion collection vid with
           | .ok doc => ⟨⟨200, .docBody doc⟩, [.restoreVersionCall collection vid]⟩
           | .error msg => ⟨⟨500, .errorBody msg⟩, [.restoreVersionCall collection vid]⟩)
      | none => ⟨⟨400, .errorBody "Missing versionId in request body"⟩, []⟩
  else ⟨⟨400, .errorBody (notConfiguredMsg collection)⟩, []⟩

/-- A host whose operations all succeed with fixed values, for concrete
evaluations. -/
def trivialHost : Host :=
  { find := fun _ _ _ _ => .ok []
  , create := fun _ _ _ => .ok ⟨"1", none, none, false⟩
  , findByID := fun _ _ _ _ => .ok ⟨"1", none, none, false⟩
  , update := fun _ _ _ _ _ => .ok ⟨"1", none, none, false⟩
  , delete := fun _ _ => .ok ()
  , findVersions := fun _ _ _ _ => .ok []
  , restoreVersion := fun _ _ => .ok ⟨"1", none, none, false⟩ }

/-- A host whose operations all throw with the given message, for
concrete evaluations. -/
def failingHost (msg : String) : Host :=
  { find := fun _ _ _ _ => .error msg
  , create := fun _ _ _ => .error msg
  , findByID := fun _ _ _ _ => .error msg
  , update := fun _ _ _ _ _ => .error msg
  , delete := fun _ _ => .error msg
  , findVersions := fun _ _ _ _ => .error msg
  , restoreVersion := fun _ _ => .error msg }

/-- **C5**: Every one of the seven handlers, invoked with a collection
not in the configured allow-list, returns a 400 JSON `{ error }`
response and performs no host call. -/
theorem handlers_reject_unlisted_collection
    (collections : List String) (host : Host) (collection id : String)
    (body : RequestBody)
    (h : collections.contains collection = false) :
    createListHandler collections host collection =
      ⟨⟨400, .errorBody (notConfiguredMsg collection)⟩, []⟩ ∧
    createCreateHandler collections host collection body =
      ⟨⟨400, .errorBody (notConfiguredMsg collection)⟩, []⟩ ∧
    createGetHandler collections host collection id =
      ⟨⟨400, .errorBody (notConfiguredMsg collection)⟩, []⟩ ∧
    createUpdateHandler collections host collection id body =
      ⟨⟨400, .errorBody (notConfiguredMsg collection)⟩, []⟩ ∧
    createDeleteHandler collections host collection id =
      ⟨⟨400, .errorBody (notConfiguredMsg collection)⟩, []⟩ ∧
    createVersionsHandler collections host collection id =
      ⟨⟨400, .errorBody (notConfiguredMsg collection)⟩, []⟩ ∧
    createRestoreHandler collections host collection id body =
      ⟨⟨400, .errorBody (notConfiguredMsg collection)⟩, []⟩ := by
  have h' : collection ∉ collections := by simpa using h
  refine ⟨?_, ?_, ?_, ?_, ?_, ?_, ?_⟩ <;>
    simp [createListHandler, createCreateHandler, createGetHandler,
      createUpdateHandler, createDeleteHandler, createVersionsHandler,
      createRestoreHandler, h']

/-- Witness for C5: the allow-list `["pages"]` and the unlisted
collection `"posts"`. -/
theorem handlers_reject_unlisted_collection_witness :
    createListHandler ["pages"] trivialHost "posts" =
      ⟨⟨400, .errorBody (notConfiguredMsg "posts")⟩, []⟩ ∧
    createCreateHandler ["pages"] trivialHost "posts" ⟨none, none, []⟩ =
      ⟨⟨400, .errorBody (notConfiguredMsg "posts")⟩, []⟩ ∧
    createGetHandler ["pages"] trivialHost "posts" "p1" =
      ⟨⟨400, .errorBody (notConfiguredMsg "posts")⟩, []⟩ ∧
    createUpdateHandler ["pages"] trivialHost "posts" "p1" ⟨none, none, []⟩ =
      ⟨⟨400, .errorBody (notConfiguredMsg "posts")⟩, []⟩ ∧
    createDeleteHandler ["pages"] trivialHost "posts" "p1" =
      ⟨⟨400, .errorBody (notConfiguredMsg "posts")⟩, []⟩ ∧
    createVersionsHandler ["pages"] trivialHost "posts" "p1" =
      ⟨⟨400, .errorBody (notConfiguredMsg "posts")⟩, []⟩ ∧
    createRestoreHandler ["pages"] trivialHost "posts" "p1" ⟨none, none, []⟩ =
      ⟨⟨400, .errorBody (notConfiguredMsg "posts")⟩, []⟩ :=
  handlers_reject_unlisted_collection ["pages"] trivialHost "posts" "p1"
    ⟨none, none, []⟩ (by decide)

/-- **C6**: On an allow-listed collection, the update handler performs a
non-draft write storing status `"published"` exactly when the body's
`_status` equals `"published"`, and a draft write storing status
`"draft"` for every other body (including `_status` absent). -/
theorem update_publish_vs_draft
    (collections : List String) (host : Host) (collection id : String)
    (body : RequestBody) (h : collections.contains collection = true) :
    (body.statusField = some "published" →
      (createUpdateHandler collections host collection id body).hostCalls =
        [.updateCall collection id body.rest "published" false]) ∧
    (body.statusField ≠ some "published" →
      (createUpdateHandler collections host collection id body).hostCalls =
        [.updateCall collection id body.rest "draft" true]) := by
  constructor
  · intro hs
    have hb : (body.statusField == some "published") = true := by
      rw [hs]; rfl
    simp only [createUpdateHandler, h, if_true, hb]
    cases hu : host.update collection id body.rest "published" false <;>
      simp [hu]
  · intro hs
    have hb : (body.statusField == some "published") = false := by
      rw [beq_eq_false_iff_ne]
      exact hs
    simp only [createUpdateHandler, h, if_true, hb]
    cases hu : host.update collection id body.rest "draft" true <;>
      simp [hu]

/-- Witness for C6: the body `{ _status: 'published', title: 'X' }` and
the same body with `_status` omitted. -/
theorem update_publish_vs_draft_witness :
    (createUpdateHandler ["pages"] trivialHost "pages" "p1"
        ⟨some "published", none, [("title", "X")]⟩).hostCalls =
      [.updateCall "pages" "p1" [("title", "X")] "published" false] ∧
    (createUpdateHandler ["pages"] trivialHost "pages" "p1"
        ⟨none, none, [("title", "X")]⟩).hostCalls =
      [.updateCall "pages" "p1" [("title", "X")] "draft" true] :=
  ⟨(update_publish_vs_draft ["pages"] trivialHost "pages" "p1"
      ⟨some "published", none, [("title", "X")]⟩ (by decide)).1 rfl,
   (update_publish_vs_draft ["pages"] trivialHost "pages" "p1"
      ⟨none, none, [("title", "X")]⟩ (by decide)).2 (by decide)⟩

/-- **C7**: On an allow-listed collection, a restore request whose body
lacks a `versionId` (absent, null, or empty) gets a 400 JSON `{ error }`
response with no host call; with a `versionId` present the handler calls
the host restore with exactly that version id. -/
theorem restore_requires_versionId
    (collections : List String) (host : Host) (collection id : String)
    (body : RequestBody) (h : collections.contains collection = true) :
    (isJsFalsyStr body.versionId = true →
      createRestoreHandler collections host collection id body =
        ⟨⟨400, .errorBody "Missing versionId in request body"⟩, []⟩) ∧
    (∀ vid, body.versionId = some vid → vid ≠ "" →
      (createRestoreHandler collections host collection id body).hostCalls =
        [.restoreVersionCall collection vid]) := by
  have h' : collection ∈ collections := by simpa using h
  constructor
  · intro hf
    simp [createRestoreHandler, h', hf]
  · intro vid hv hne
    have hvid : isJsFalsyStr (some vid) = false := by
      simp [isJsFalsyStr]
      exact hne
    simp only [createRestoreHandler, h, if_true, hv, hvid]
    cases hu : host.restoreVersion collection vid <;> simp [hu, hvid]

/-- Witness for C7: a body without `versionId` and a body carrying
`versionId = "v1"`. -/
theorem restore_requires_versionId_witness :
    createRestoreHandler ["pages"] trivialHost "pages" "p1" ⟨none, none, []⟩ =
      ⟨⟨400, .errorBody "Missing versionId in request body"⟩, []⟩ ∧
    (createRestoreHandler ["pages"] trivialHost "pages" "p1"
        ⟨none, some "v1", []⟩).hostCalls =
      [.restoreVersionCall "pages" "v1"] :=
  ⟨(restore_requires_versionId ["pages"] trivialHost "pages" "p1"
      ⟨none, none, []⟩ (by decide)).1 rfl,
   (restore_requires_versionId ["pages"] trivialHost "pages" "p1"
      ⟨none, some "v1", []⟩ (by decide)).2 "v1" rfl (by decide)⟩

/-- **C8**: Every handler catches a host exception raised during its
body and translates it to a 500 JSON `{ error: message }` response; the
handlers are total functions, so no host error propagates past them. -/
theorem handlers_translate_host_errors
    (collections : List String) (host : Host) (collection id : String)
    (body : RequestBody) (msg : String)
    (h : collections.contains collection = true) :
    (host.find collection true 0 100 = .error msg →
      (createListHandler collections host collection).response =
        ⟨500, .errorBody msg⟩) ∧
    (host.create collection body true = .error msg →
      (createCreateHandler collections host collection body).response =
        ⟨500, .errorBody msg⟩) ∧
    (host.findByID collection id true 0 = .error msg →
      (createGetHandler collections host collection id).response =
        ⟨500, .errorBody msg⟩) ∧
    (host.update collection id body.rest
        (if body.statusField == some "published" then "published" else "draft")
        (!(body.statusField == some "published")) = .error msg →
      (createUpdateHandler collections host collection id body).response =
        ⟨500, .errorBody msg⟩) ∧
    (host.delete collection id = .error msg →
      (createDeleteHandler collections host collection id).response =
        ⟨500, .errorBody msg⟩) ∧
    (host.findVersions collection id "-updatedAt" 20 = .error msg →
      (createVersionsHandler collections host collection id).response =
        ⟨500, .errorBody msg⟩) ∧
    (∀ vid, body.versionId = some vid → vid ≠ "" →
      host.restoreVersion collection vid = .error msg →
      (createRestoreHandler collections host collection id body).response =
        ⟨500, .errorBody msg⟩) := by
  have h' : collection ∈ collections := by simpa using h
  refine ⟨?_, ?_, ?_, ?_, ?_, ?_, ?_⟩
  · intro he
    simp [createListHandler, h', he]
  · intro he
    simp [createCreateHandler, h', he]
  · intro he
    simp [createGetHandler, h', he]
  · intro he
    cases hb : (body.statusField == some "published") with
    | false =>
      simp only [hb, if_false, Bool.false_eq_true, ite_false, Bool.not_false] at he
      simp [createUpdateHandler, h', hb, he]
    | true =>
      simp only [hb, if_true, ite_true, Bool.not_true] at he
      simp [createUpdateHandler, h', hb, he]
  · intro he
    simp [createDeleteHandler, h', he]
  · intro he
    simp [createVersionsHandler, h', he]
  · intro vid hv hne he
    have hvid : isJsFalsyStr (some vid) = false := by
      simp [isJsFalsyStr]
      exact hne
    simp [createRestoreHandler, h', hv, hvid, he]

/-- Witness for C8: a host all of whose operations throw `"boom"`. -/
theorem handlers_translate_host_errors_witness :
    (createListHandler ["pages"] (failingHost "boom") "pages").response =
      ⟨500, .errorBody "boom"⟩ ∧
    (createCreateHandler ["pages"] (failingHost "boom") "pages"
      ⟨none, some "v1", []⟩).response = ⟨500, .errorBody "boom"⟩ ∧
    (createGetHandler ["pages"] (failingHost "boom") "pages" "p1").response =
      ⟨500, .errorBody "boom"⟩ ∧
    (createUpdateHandler ["pages"] (failingHost "boom") "pages" "p1"
      ⟨none, some "v1", []⟩).response = ⟨500, .errorBody "boom"⟩ ∧
    (createDeleteHandler ["pages"] (failingHost "boom") "pages" "p1").response =
      ⟨500, .errorBody "boom"⟩ ∧
    (createVersionsHandler ["pages"] (failingHost "boom") "pages" "p1").response =
      ⟨500, .errorBody "boom"⟩ ∧
    (createRestoreHandler ["pages"] (failingHost "boom") "pages" "p1"
      ⟨none, some "v1", []⟩).response = ⟨500, .errorBody "boom"⟩ := by
  have T := handlers_translate_host_errors ["pages"] (failingHost "boom")
    "pages" "p1" ⟨none, some "v1", []⟩ "boom" (by decide)
  exact ⟨T.1 rfl, T.2.1 rfl, T.2.2.1 rfl, T.2.2.2.1 rfl,
    T.2.2.2.2.1 rfl, T.2.2.2.2.2.1 rfl,
    T.2.2.2.2.2.2 "v1" rfl (by decide) rfl⟩

/-! ## Version-history panel (from `VersionHistory`)

The client panel's `fetchVersions` issues
`GET apiEndpoint/pageId/versions?limit=20` and renders
`data.docs || []`; its `handleRestore` issues a POST to
`apiEndpoint/pageId/versions` with body `JSON.stringify` of the clicked
version's id.  The documented endpoint paths are those of the handler
module: `GET /api/puck/:collection/:id/versions` and
`POST /api/puck/:collection/:id/restore`.
-/

/-- The panel's default `apiEndpoint` prop. -/
def defaultApiEndpoint : String := "/api/puck/pages"

/-- URL of the list request the panel issues when opened
(`fetchVersions`). -/
def panelVersionsRequestUrl (apiEndpoint pageId : String) : String :=
  apiEndpoint ++ "/" ++ pageId ++ "/versions?limit=20"

/-- URL of the restore request the panel issues (`handleRestore`). -/
def panelRestoreRequestUrl (apiEndpoint pageId : String) : String :=
  apiEndpoint ++ "/" ++ pageId ++ "/versions"

/-- Method of the panel's restore request. -/
def panelRestoreRequestMethod : String := "POST"

/-- Body of the panel's restore request. -/
structure PanelRestoreBody where
  versionId : String
deriving DecidableEq, Repr

/-- `JSON.stringify` of the restore body built from the clicked
version. -/
def panelRestoreRequestBody (version : VersionRecord) : PanelRestoreBody :=
  ⟨version.id⟩

/-- The documented list-versions endpoint path
(`GET /api/puck/:collection/:id/versions`). -/
def versionsEndpointPath (collection id : String) : String :=
  "/api/puck/" ++ collection ++ "/" ++ id ++ "/versions"

/-- The documented restore endpoint path
(`POST /api/puck/:collection/:id/restore`). -/
def restoreEndpointPath (collection id : String) : String :=
  "/api/puck/" ++ collection ++ "/" ++ id ++ "/restore"

/-- A versions-endpoint response JSON as the panel can read it: the
top-level keys of the handler's `Response.json` object. -/
structure VersionsResponseJson where
  error : Option String
  versions : Option (List VersionRecord)
  docs : Option (List VersionRecord)
deriving DecidableEq, Repr

/-- The JSON keys of each handler response body.  The versions
handler's object literal is `{ versions: versions.docs }`, so it has a
`versions` key and no `docs` key. -/
def resBodyJson : ResBody → VersionsResponseJson
  | .errorBody m => ⟨some m, none, none⟩
  | .versionsBody vs => ⟨none, some vs, none⟩
  | _ => ⟨none, none, none⟩

/-- `setVersions(data.docs || [])`: the version records the panel
renders from a versions-endpoint response. -/
def panelRenderedVersions (data : VersionsResponseJson) : List VersionRecord :=
  data.docs.getD []

/-- A concrete version record used to evaluate the panel/handler pair. -/
def exampleVersionRecord : VersionRecord :=
  ⟨"v9", "p1", some "T", some "draft", "2026-01-01", "2026-01-02", false⟩

/-- A host whose versioning system holds exactly `exampleVersionRecord`. -/
def exampleVersionsHost : Host :=
  { trivialHost with
    findVersions := fun _ _ _ _ => Except.ok [exampleVersionRecord] }

/-- **C4** fails on the code; this evaluates the embedded panel and
handler at the failing input.  The versions handler answers the panel's
list request with `{ versions: [v] }`, but the panel renders
`data.docs || [] = []`, not the response's records; and the panel's
restore request is a POST to `.../versions` with body `{ versionId }`,
not to the documented restore path `.../restore`. -/
theorem versionHistory_panel_divergence :
    (createVersionsHandler ["pages"] exampleVersionsHost "pages" "p1").response =
      ⟨200, .versionsBody [exampleVersionRecord]⟩ ∧
    panelRenderedVersions (resBodyJson (.versionsBody [exampleVersionRecord])) = [] ∧
    panelVersionsRequestUrl defaultApiEndpoint "p1" =
      versionsEndpointPath "pages" "p1" ++ "?limit=20" ∧
    panelRestoreRequestMethod = "POST" ∧
    panelRestoreRequestBody exampleVersionRecord = ⟨"v9"⟩ ∧
    panelRestoreRequestUrl defaultApiEndpoint "p1" =
      versionsEndpointPath "pages" "p1" ∧
    panelRestoreRequestUrl defaultApiEndpoint "p1" ≠
      restoreEndpointPath "pages" "p1" := by
  refine ⟨rfl, rfl, by decide, rfl, rfl, by decide, by decide⟩

/-! ## Styles endpoint (from `createStylesHandler`)

The handler serves compiled CSS for the editor iframe.  The module-level
`cssCache : Map<string, { css, mtime }>` is keyed by the configured
`cssFilePath`; the handler stats the file, compares the cached entry's
`mtime` with the fresh one, and either serves the cached stylesheet
(`X-Puck-Cache: hit`) or compiles, stores `{ css, mtime }`, and serves
the fresh stylesheet (`X-Puck-Cache: miss`), in both cases with
`Cache-Control: public, max-age=31536000, immutable`.  The filesystem
(existence, mtime, raw contents) and the PostCSS pipeline
(`compileCss`, which can throw) are inputs of the embedding, and the
outcome returns the updated cache plus whether a compilation ran.
-/

/-- A CSS cache entry (`CssCache` in the source): compiled css plus the
source file's modification time. -/
structure CssCacheEntry where
  css : String
  mtime : Nat
deriving DecidableEq, Repr

/-- The in-memory cache, a map from source path to entry (newest
binding first). -/
def CssCache := List (String × CssCacheEntry)

/-- `cssCache.get key`. -/
def cacheGet (cache : CssCache) (key : String) : Option CssCacheEntry :=
  (cache.find? (fun kv => kv.1 == key)).map Prod.snd

/-- `cssCache.set key entry` (replaces any previous binding). -/
def cacheSet (cache : CssCache) (key : String) (e : CssCacheEntry) : CssCache :=
  (key, e) :: cache.filter (fun kv => !(kv.1 == key))

/-- An HTTP response of the styles endpoint. -/
structure StylesResponse where
  status : Nat
  body : String
  contentType : String
  cacheControl : Option String
  xPuckCache : Option String
deriving DecidableEq, Repr

/-- One styles-handler invocation outcome: response, cache afterwards,
and whether the CSS pipeline ran. -/
structure StylesOutcome where
  response : StylesResponse
  cache : CssCache
  compiled : Bool

/-- The long-lived cache header both cached and fresh responses carry. -/
def longLivedCacheControl : String := "public, max-age=31536000, immutable"

/-- The handler returned by `createStylesHandler cssFilePath`, for one
request: `fileExists`/`mtime`/`rawCss` are the results of `existsSync`,
`statSync(...).mtimeMs` and `readFileSync`, and `compile` is
`compileCss` (throwing modelled as `Except.error`). -/
def stylesHandler (cache : CssCache) (cssFilePath : String)
    (fileExists : Bool) (mtime : Nat) (rawCss : String)
    (compile : String → Except String String) : StylesOutcome :=
  if !fileExists then
    ⟨⟨404, "/* CSS file not found: " ++ cssFilePath ++ " */", "text/css",
      none, none⟩, cache, false⟩
  else
    let freshBranch : StylesOutcome :=
      match compile rawCss with
      | .ok compiledCss =>
          ⟨⟨200, compiledCss, "text/css", some longLivedCacheControl,
            some "miss"⟩,
           cacheSet cache cssFilePath ⟨compiledCss, mtime⟩, true⟩
      | .error msg =>
          ⟨⟨500, "/* Error compiling CSS: " ++ msg ++ " */", "text/css",
            none, none⟩, cache, true⟩
    match cacheGet cache cssFilePath with
    | some cached =>
        if cached.mtime == mtime then
          ⟨⟨200, cached.css, "text/css", some longLivedCacheControl,
            some "hit"⟩, cache, false⟩
        else freshBranch
    | none => freshBranch

/-- **C9**: When the source file exists, a cached entry for the source
path whose recorded mtime equals the fresh mtime is served as-is with
the long-lived cache header and the `hit` diagnostic, without
recompiling and without touching the cache; otherwise the handler
compiles, stores `{ css, mtime }` under the source path, and serves the
compiled stylesheet with the `miss` diagnostic. -/
theorem stylesHandler_cache_hit_miss (cache : CssCache)
    (cssFilePath : String) (mtime : Nat) (rawCss css : String)
    (compile : String → Except String String) (e : CssCacheEntry) :
    (cacheGet cache cssFilePath = some e → e.mtime = mtime →
      stylesHandler cache cssFilePath true mtime rawCss compile =
        ⟨⟨200, e.css, "text/css", some longLivedCacheControl, some "hit"⟩,
         cache, false⟩) ∧
    ((cacheGet cache cssFilePath = none ∨
        (cacheGet cache cssFilePath = some e ∧ e.mtime ≠ mtime)) →
      compile rawCss = .ok css →
      stylesHandler cache cssFilePath true mtime rawCss compile =
        ⟨⟨200, css, "text/css", some longLivedCacheControl, some "miss"⟩,
         cacheSet cache cssFilePath ⟨css, mtime⟩, true⟩) := by
  constructor
  · intro hc hm
    simp [stylesHandler, hc, hm]
  · intro hc hcomp
    rcases hc with hc | ⟨hc, hm⟩
    · simp [stylesHandler, hc, hcomp]
    · have hm' : (e.mtime == mtime) = false := by
        rw [beq_eq_false_iff_ne]
        exact hm
      simp [stylesHandler, hc, hm', hcomp]

/-- Witness for C9: a hit on a cache holding `a.css ↦ ("x", 5)` at
mtime 5, and a miss on the empty cache. -/
theorem stylesHandler_cache_hit_miss_witness :
    stylesHandler [("a.css", ⟨"x", 5⟩)] "a.css" true 5 "raw"
        (fun _ => Except.ok "y") =
      ⟨⟨200, "x", "text/css", some longLivedCacheControl, some "hit"⟩,
       [("a.css", ⟨"x", 5⟩)], false⟩ ∧
    stylesHandler [] "a.css" true 5 "raw" (fun _ => Except.ok "y") =
      ⟨⟨200, "y", "text/css", some longLivedCacheControl, some "miss"⟩,
       cacheSet [] "a.css" ⟨"y", 5⟩, true⟩ :=
  ⟨(stylesHandler_cache_hit_miss [("a.css", ⟨"x", 5⟩)] "a.css" 5 "raw" "y"
      (fun _ => Except.ok "y") ⟨"x", 5⟩).1 rfl rfl,
   (stylesHandler_cache_hit_miss [] "a.css" 5 "raw" "y"
      (fun _ => Except.ok "y") ⟨"x", 5⟩).2 (Or.inl rfl) rfl⟩

end PayloadPuck
